import Mathlib

/-!
Shallow embedding of the thundering-herd cache (package `tcache`, file
`src/cache.go`) and proofs about it.

Modelling conventions:
* Go `error` values are modelled by their message strings (`ErrMsg`); a Go
  `error` result is `Option ErrMsg`, with `none` standing for Go `nil`.
* A Go `map[string]V` is modelled as an association list `GoMap V`; a map
  field that may be the Go `nil` map (`items`) is `Option (GoMap V)`, with
  `none` standing for the nil map.  The in-flight tracker maps
  (`isBeingFetchedMap`, `isBeingFetchedWG`) are modelled as plain
  association lists: a missing key reads as the zero value, exactly as a
  Go map read does, and they are initialized by `New` on every cache the
  claims exercise (the only state with `items = nil` that is reachable
  together with a usable fetcher is the one produced by `New` with a
  prewarm function returning a nil map, and there the tracker maps are
  initialized).
* A `*sync.WaitGroup` entry is modelled by its counter (`Nat`); an absent
  entry models the nil pointer.
* Cached values have an opaque type parameter `V` (Go `interface{}`).
* The ghost field `fetchLog` records, in order, the keys passed to the
  supplied fetch function; it exists only to state how often the fetcher
  was invoked and does not influence any behaviour.
* Sequential operations are big-step functions; outcomes that cannot be
  produced by a terminating sequential run (waiting on a nonzero
  WaitGroup counter, dereferencing a nil WaitGroup pointer, writing to a
  nil map) are represented explicitly by `blocked` / `panicked`
  constructors so the definitions stay total and faithful.
* For the concurrency claims a separate small-step interleaving semantics
  is defined further below, with one atomic step per lock-protected
  region and the fetch call split into a begin and an end step.
-/

namespace TCache

/-- Go error values, modelled by their message strings. -/
abbrev ErrMsg := String

/-- The `ErrNotInitialized` error declared at the top of `cache.go`. -/
def errNotInitialized : ErrMsg :=
  "initialize the cache by calling New, not creating an empty struct"

/-- Association-list model of a Go `map[string]V`. -/
abbrev GoMap (V : Type) := List (String × V)

namespace GoMap

/-- Go map read `m[k]`: the first binding of `k`, if any. -/
def find? {V : Type} (m : GoMap V) (k : String) : Option V :=
  match m with
  | [] => none
  | (k', v) :: rest => if k' = k then some v else find? rest k

/-- Remove every binding of `k`. -/
def erase {V : Type} (m : GoMap V) (k : String) : GoMap V :=
  match m with
  | [] => []
  | (k', v) :: rest => if k' = k then erase rest k else (k', v) :: erase rest k

/-- Go map write `m[k] = v`: bind `k` to `v`, dropping older bindings. -/
def insert {V : Type} (m : GoMap V) (k : String) (v : V) : GoMap V :=
  (k, v) :: erase m k

/-- The keys of a `GoMap` are pairwise distinct (true of every real Go map). -/
def NodupKeys {V : Type} (m : GoMap V) : Prop :=
  (m.map Prod.fst).Nodup

instance {V : Type} (m : GoMap V) : Decidable (NodupKeys m) := by
  unfold NodupKeys; infer_instance

theorem find?_eq_none_of_not_mem {V : Type} {m : GoMap V} {k : String}
    (h : k ∉ m.map Prod.fst) : m.find? k = none := by
  induction m with
  | nil => rfl
  | cons p rest ih =>
    simp only [List.map_cons, List.mem_cons, not_or] at h
    simp only [find?]
    rw [if_neg (fun hk => h.1 hk.symm)]
    exact ih h.2

theorem find?_erase_ne {V : Type} (m : GoMap V) {k k' : String}
    (h : k' ≠ k) : (m.erase k).find? k' = m.find? k' := by
  induction m with
  | nil => rfl
  | cons p rest ih =>
    rcases p with ⟨a, b⟩
    by_cases ha : a = k
    · subst ha
      simp only [erase, if_true, find?]
      rw [ih, if_neg (fun hk => h hk.symm)]
    · simp only [erase, if_neg ha, find?]
      by_cases hk : a = k'
      · simp [hk]
      · rw [if_neg hk, if_neg hk]
        exact ih

theorem find?_insert_self {V : Type} (m : GoMap V) (k : String) (v : V) :
    (m.insert k v).find? k = some v := by
  simp [insert, find?]

theorem find?_insert_ne {V : Type} (m : GoMap V) {k k' : String} (v : V)
    (h : k' ≠ k) : (m.insert k v).find? k' = m.find? k' := by
  simp only [insert, find?]
  rw [if_neg (fun hk => h hk.symm)]
  exact find?_erase_ne m h

end GoMap

/-- The `Cache` struct of `cache.go`.  `items = none` models the nil Go
map of a cache that skipped the constructor (or whose prewarm function
returned a nil map); locks are not represented because the sequential
model executes one operation atomically. -/
structure Cache (V : Type) where
  items : Option (GoMap V)
  fetch : String → V × Option ErrMsg
  isBeingFetchedMap : GoMap Bool
  isBeingFetchedWG : GoMap Nat
  fetchLog : List String

/-- Result of `New`: the returned `*Cache` (nil on prewarm error) and the
returned `error`. -/
def New {V : Type} (fetch : String → V × Option ErrMsg)
    (preWarmInit : Option (Unit → Option (GoMap V) × Option ErrMsg)) :
    Option (Cache V) × Option ErrMsg :=
  match preWarmInit with
  | some pw =>
    match pw () with
    | (_, some e) => (none, some e)
    | (items, none) =>
      (some { items := items, fetch := fetch, isBeingFetchedMap := [],
              isBeingFetchedWG := [], fetchLog := [] }, none)
  | none =>
    (some { items := some [], fetch := fetch, isBeingFetchedMap := [],
            isBeingFetchedWG := [], fetchLog := [] }, none)

/-- Outcome of a sequential `Get` call: a normal return carrying the
returned `(value, err)` pair and the post-state, a call that blocks
forever on a WaitGroup, or a run-time panic. -/
inductive GetOut (V : Type) where
  | ret (value : Option V) (err : Option ErrMsg) (c : Cache V)
  | blocked (c : Cache V)
  | panicked (c : Cache V)

/-- Outcome of a sequential `Update` call. -/
inductive UpdOut (V : Type) where
  | ret (err : Option ErrMsg) (c : Cache V)
  | blocked (c : Cache V)
  | panicked (c : Cache V)

/-- The leader branch of `Get` (`cache.go` lines 71-95): mark the key
in-flight, create or reuse the WaitGroup and `Add(1)`, call the fetcher,
and on success store the value and reset the flag.  On a fetch error the
function returns early: only the deferred `wg.Done()` runs, and the
in-flight flag is left set. -/
def Cache.getLeader {V : Type} (c : Cache V) (key : String) (items : GoMap V) :
    GetOut V :=
  let wg0 := (c.isBeingFetchedWG.find? key).getD 0
  let c1 : Cache V :=
    { c with isBeingFetchedMap := c.isBeingFetchedMap.insert key true,
             isBeingFetchedWG := c.isBeingFetchedWG.insert key (wg0 + 1) }
  match c.fetch key with
  | (v, some e) =>
    GetOut.ret (some v) (some e)
      { c1 with fetchLog := c1.fetchLog ++ [key],
                isBeingFetchedWG := c1.isBeingFetchedWG.insert key wg0 }
  | (v, none) =>
    GetOut.ret (some v) none
      { c1 with items := some (items.insert key v),
                fetchLog := c1.fetchLog ++ [key],
                isBeingFetchedMap := c1.isBeingFetchedMap.insert key false,
                isBeingFetchedWG := c1.isBeingFetchedWG.insert key wg0 }

/-- Sequential big-step semantics of `Get` (`cache.go` lines 54-104).
The follower branch waits on the key's WaitGroup: in a sequential run the
counter is zero whenever the branch is reached (every leader decrements
it before returning), and the branch then re-reads the value store. -/
def Cache.get {V : Type} (c : Cache V) (key : String) : GetOut V :=
  match c.items with
  | none => GetOut.ret none (some errNotInitialized) c
  | some items =>
    match items.find? key with
    | some v => GetOut.ret (some v) none c
    | none =>
      if (c.isBeingFetchedMap.find? key).getD false then
        match c.isBeingFetchedWG.find? key with
        | none => GetOut.panicked c
        | some (Nat.succ _) => GetOut.blocked c
        | some 0 => GetOut.ret (items.find? key) none c
      else
        c.getLeader key items

/-- Verbatim restatement of `GetAll` (`cache.go` lines 108-119): nil marker
on the zero state, otherwise a fresh map built by ranging over `items`. -/
def Cache.getAll {V : Type} (c : Cache V) : Option (GoMap V) :=
  match c.items with
  | none => none
  | some items => some (items.foldl (fun acc p => acc.insert p.1 p.2) [])

/-- The `Clear` of `cache.go` lines 240-248, the variant with the
initialization check whose behaviour the repository's `TestClear` pins
down (`cache_test.go` lines 58-81). -/
def Cache.clear {V : Type} (c : Cache V) : Option ErrMsg × Cache V :=
  match c.items with
  | none => (some errNotInitialized, c)
  | some _ => (none, { c with items := some [] })

/-- The `Clear` variant of `cache.go` lines 121-126, which performs no
initialization check and returns nothing; kept for reference because the
repository's own test requires the checking variant above. -/
def Cache.clearNoCheck {V : Type} (c : Cache V) : Cache V :=
  { c with items := some [] }

/-- The leader branch of `Update` (`cache.go` lines 136-160), identical in
structure to `Get`'s leader branch except that a successful write into a
nil `items` map panics (`Update` never checks initialization); the
deferred `wg.Done()` still runs while the panic unwinds. -/
def Cache.updateLeader {V : Type} (c : Cache V) (key : String) : UpdOut V :=
  let wg0 := (c.isBeingFetchedWG.find? key).getD 0
  let c1 : Cache V :=
    { c with isBeingFetchedMap := c.isBeingFetchedMap.insert key true,
             isBeingFetchedWG := c.isBeingFetchedWG.insert key (wg0 + 1) }
  match c.fetch key with
  | (_, some e) =>
    UpdOut.ret (some e)
      { c1 with fetchLog := c1.fetchLog ++ [key],
                isBeingFetchedWG := c1.isBeingFetchedWG.insert key wg0 }
  | (v, none) =>
    match c1.items with
    | none =>
      UpdOut.panicked
        { c1 with fetchLog := c1.fetchLog ++ [key],
                  isBeingFetchedWG := c1.isBeingFetchedWG.insert key wg0 }
    | some items =>
      UpdOut.ret none
        { c1 with items := some (items.insert key v),
                  fetchLog := c1.fetchLog ++ [key],
                  isBeingFetchedMap := c1.isBeingFetchedMap.insert key false,
                  isBeingFetchedWG := c1.isBeingFetchedWG.insert key wg0 }

/-- Sequential big-step semantics of `Update` (`cache.go` lines 130-172).
When a fetch is observed in flight it waits on the WaitGroup and then
performs one more fetch of its own, writing the result; that second write
also panics on a nil `items` map (and there is no deferred `Done` in this
branch: the defer is registered only in the leader branch). -/
def Cache.update {V : Type} (c : Cache V) (key : String) : UpdOut V :=
  if (c.isBeingFetchedMap.find? key).getD false then
    match c.isBeingFetchedWG.find? key with
    | none => UpdOut.panicked c
    | some (Nat.succ _) => UpdOut.blocked c
    | some 0 =>
      match c.fetch key with
      | (_, some e) => UpdOut.ret (some e) { c with fetchLog := c.fetchLog ++ [key] }
      | (v, none) =>
        match c.items with
        | none => UpdOut.panicked { c with fetchLog := c.fetchLog ++ [key] }
        | some items =>
          UpdOut.ret none
            { c with items := some (items.insert key v),
                     fetchLog := c.fetchLog ++ [key] }
  else
    c.updateLeader key

/-- Read of the value store, `some v` iff the store is initialized and
holds `v` at `k`. -/
def Cache.itemsFind {V : Type} (c : Cache V) (k : String) : Option V :=
  match c.items with
  | none => none
  | some m => m.find? k

/-- Cache operations, used to talk about arbitrary interleavings of
sequential calls between two points of interest. -/
inductive Op where
  | get (k : String)
  | update (k : String)
  | clear
deriving DecidableEq

/-- The cache state carried by a `Get` outcome. -/
def GetOut.post {V : Type} : GetOut V → Cache V
  | GetOut.ret _ _ c => c
  | GetOut.blocked c => c
  | GetOut.panicked c => c

/-- The cache state carried by an `Update` outcome. -/
def UpdOut.post {V : Type} : UpdOut V → Cache V
  | UpdOut.ret _ c => c
  | UpdOut.blocked c => c
  | UpdOut.panicked c => c

/-- State reached after one sequential call (the post-state carried by
the call's outcome; a blocked or panicked call leaves the state it
reached). -/
def Cache.runOp {V : Type} (c : Cache V) : Op → Cache V
  | Op.get k => (c.get k).post
  | Op.update k => (c.update k).post
  | Op.clear => (c.clear).2

/-- State reached after a sequence of calls. -/
def Cache.runOps {V : Type} (c : Cache V) : List Op → Cache V
  | [] => c
  | op :: rest => (c.runOp op).runOps rest

/-!
Small-step interleaving semantics for the concurrency claims.  Each
atomic step is one lock-protected region of `cache.go` (or a purely
thread-local transition); the fetch call is split into a begin step
(which records the invocation) and an end step (which observes the
result), so that a state in which a fetch is executing is explicit.
-/

/-- The shared state of the cache as seen by concurrent threads. -/
structure SharedSt (V : Type) where
  items : Option (GoMap V)
  isBeingFetchedMap : GoMap Bool
  isBeingFetchedWG : GoMap Nat
  fetchLog : List String

/-- Control state of one thread running `Get(k)` (constructors prefixed
`g`, following `cache.go` lines 54-104) or `Update(k)` (prefixed `u`,
lines 130-172).  Each constructor names the next atomic action the
thread will take. -/
inductive TSt (V : Type) where
  | gStart (k : String)
  | gCheckFlag (k : String)
  | gSetFlag (k : String)
  | gBeginFetch (k : String)
  | gInFetch (k : String)
  | gWrite (k : String) (v : V)
  | gClearFlag (k : String) (v : V)
  | gRelease (k : String) (value : Option V) (err : Option ErrMsg)
  | gWait (k : String)
  | gReread (k : String)
  | gDone (value : Option V) (err : Option ErrMsg)
  | uStart (k : String)
  | uSetFlag (k : String)
  | uBeginFetch (k : String)
  | uInFetch (k : String)
  | uWrite (k : String) (v : V)
  | uClearFlag (k : String)
  | uRelease (k : String) (err : Option ErrMsg)
  | uWait (k : String)
  | uBeginFetch2 (k : String)
  | uInFetch2 (k : String)
  | uWrite2 (k : String) (v : V)
  | uDone (err : Option ErrMsg)
  | tPanic
deriving DecidableEq

/-- Decrement the WaitGroup counter of `k` (a `wg.Done()` call). -/
def SharedSt.wgDone {V : Type} (s : SharedSt V) (k : String) : SharedSt V :=
  { s with isBeingFetchedWG :=
      s.isBeingFetchedWG.insert k (((s.isBeingFetchedWG.find? k).getD 0) - 1) }

/-- One atomic step of a single thread against the shared state. -/
def stepT {V : Type} (fetch : String → V × Option ErrMsg) (s : SharedSt V) :
    TSt V → SharedSt V × TSt V
  | TSt.gStart k =>
    match s.items with
    | none => (s, TSt.gDone none (some errNotInitialized))
    | some items =>
      match items.find? k with
      | some v => (s, TSt.gDone (some v) none)
      | none => (s, TSt.gCheckFlag k)
  | TSt.gCheckFlag k =>
    if (s.isBeingFetchedMap.find? k).getD false then (s, TSt.gWait k)
    else (s, TSt.gSetFlag k)
  | TSt.gSetFlag k =>
    let wg0 := (s.isBeingFetchedWG.find? k).getD 0
    ({ s with isBeingFetchedMap := s.isBeingFetchedMap.insert k true,
              isBeingFetchedWG := s.isBeingFetchedWG.insert k (wg0 + 1) },
      TSt.gBeginFetch k)
  | TSt.gBeginFetch k =>
    ({ s with fetchLog := s.fetchLog ++ [k] }, TSt.gInFetch k)
  | TSt.gInFetch k =>
    match fetch k with
    | (v, some e) => (s, TSt.gRelease k (some v) (some e))
    | (v, none) => (s, TSt.gWrite k v)
  | TSt.gWrite k v =>
    match s.items with
    | none => (s.wgDone k, TSt.tPanic)
    | some items =>
      ({ s with items := some (items.insert k v) }, TSt.gClearFlag k v)
  | TSt.gClearFlag k v =>
    ({ s with isBeingFetchedMap := s.isBeingFetchedMap.insert k false },
      TSt.gRelease k (some v) none)
  | TSt.gRelease k value err => (s.wgDone k, TSt.gDone value err)
  | TSt.gWait k =>
    match s.isBeingFetchedWG.find? k with
    | none => (s, TSt.tPanic)
    | some 0 => (s, TSt.gReread k)
    | some (Nat.succ _) => (s, TSt.gWait k)
  | TSt.gReread k => (s, TSt.gDone ((s.items.getD []).find? k) none)
  | TSt.uStart k =>
    if (s.isBeingFetchedMap.find? k).getD false then (s, TSt.uWait k)
    else (s, TSt.uSetFlag k)
  | TSt.uSetFlag k =>
    let wg0 := (s.isBeingFetchedWG.find? k).getD 0
    ({ s with isBeingFetchedMap := s.isBeingFetchedMap.insert k true,
              isBeingFetchedWG := s.isBeingFetchedWG.insert k (wg0 + 1) },
      TSt.uBeginFetch k)
  | TSt.uBeginFetch k =>
    ({ s with fetchLog := s.fetchLog ++ [k] }, TSt.uInFetch k)
  | TSt.uInFetch k =>
    match fetch k with
    | (_, some e) => (s, TSt.uRelease k (some e))
    | (v, none) => (s, TSt.uWrite k v)
  | TSt.uWrite k v =>
    match s.items with
    | none => (s.wgDone k, TSt.tPanic)
    | some items =>
      ({ s with items := some (items.insert k v) }, TSt.uClearFlag k)
  | TSt.uClearFlag k =>
    ({ s with isBeingFetchedMap := s.isBeingFetchedMap.insert k false },
      TSt.uRelease k none)
  | TSt.uRelease k err => (s.wgDone k, TSt.uDone err)
  | TSt.uWait k =>
    match s.isBeingFetchedWG.find? k with
    | none => (s, TSt.tPanic)
    | some 0 => (s, TSt.uBeginFetch2 k)
    | some (Nat.succ _) => (s, TSt.uWait k)
  | TSt.uBeginFetch2 k =>
    ({ s with fetchLog := s.fetchLog ++ [k] }, TSt.uInFetch2 k)
  | TSt.uInFetch2 k =>
    match fetch k with
    | (_, some e) => (s, TSt.uDone (some e))
    | (v, none) => (s, TSt.uWrite2 k v)
  | TSt.uWrite2 k v =>
    match s.items with
    | none => (s, TSt.tPanic)
    | some items =>
      ({ s with items := some (items.insert k v) }, TSt.uDone none)
  | TSt.gDone value err => (s, TSt.gDone value err)
  | TSt.uDone err => (s, TSt.uDone err)
  | TSt.tPanic => (s, TSt.tPanic)

/-- A system: the shared state plus the control state of every thread. -/
structure Sys (V : Type) where
  shared : SharedSt V
  threads : List (TSt V)

/-- Run the thread with index `i` for one atomic step. -/
def Sys.step {V : Type} (fetch : String → V × Option ErrMsg) (sys : Sys V)
    (i : Nat) : Sys V :=
  match sys.threads.get? i with
  | none => sys
  | some t =>
    let st := stepT fetch sys.shared t
    { shared := st.1, threads := sys.threads.set i st.2 }

/-- Run a whole schedule (a list of thread indices). -/
def Sys.run {V : Type} (fetch : String → V × Option ErrMsg) (sys : Sys V) :
    List Nat → Sys V
  | [] => sys
  | i :: rest => (sys.step fetch i).run fetch rest

/-- A thread is between the begin and the end of a fetcher call. -/
def TSt.isFetching {V : Type} : TSt V → Bool
  | TSt.gInFetch _ => true
  | TSt.uInFetch _ => true
  | TSt.uInFetch2 _ => true
  | _ => false

/-!  Helper lemmas about the sequential semantics. -/

/-- The store lookup of an uninitialized cache is always nil. -/
theorem itemsFind_of_none {V : Type} {c : Cache V} (h : c.items = none)
    (k : String) : c.itemsFind k = none := by
  unfold Cache.itemsFind
  rw [h]

/-- The store lookup of an initialized cache is the map lookup. -/
theorem itemsFind_of_items {V : Type} {c : Cache V} {m : GoMap V}
    (h : c.items = some m) (k : String) :
    c.itemsFind k = GoMap.find? m k := by
  unfold Cache.itemsFind
  rw [h]

/-- A `Get` whose key is cached takes the fast path: it returns the
cached value with a nil error and changes nothing. -/
theorem get_hit {V : Type} {c : Cache V} {k : String} {v : V}
    (hv : c.itemsFind k = some v) :
    c.get k = GetOut.ret (some v) none c := by
  rcases hc : c.items with _ | m
  · rw [itemsFind_of_none hc] at hv
    exact absurd hv (by simp)
  · rw [itemsFind_of_items hc] at hv
    simp [Cache.get, hc, hv]

/-- A `Get` either leaves the value store untouched or inserts the key it
was called with. -/
theorem get_post_items {V : Type} (c : Cache V) (k' : String) :
    ((c.get k').post).items = c.items ∨
    ∃ items v', c.items = some items ∧
      ((c.get k').post).items = some (items.insert k' v') := by
  rcases hc : c.items with _ | items
  · left
    simp [Cache.get, GetOut.post, hc]
  · rcases hf : GoMap.find? items k' with _ | v
    · rcases hb : (GoMap.find? c.isBeingFetchedMap k').getD false with _ | _
      · rcases hfe : c.fetch k' with ⟨v, e⟩
        rcases e with _ | err
        · right
          refine ⟨items, v, rfl, ?_⟩
          simp [Cache.get, Cache.getLeader, GetOut.post, hc, hf, hb, hfe]
        · left
          simp [Cache.get, Cache.getLeader, GetOut.post, hc, hf, hb, hfe]
      · rcases hw : GoMap.find? c.isBeingFetchedWG k' with _ | n
        · left
          simp [Cache.get, GetOut.post, hc, hf, hb, hw]
        · rcases n with _ | n
          · left
            simp [Cache.get, GetOut.post, hc, hf, hb, hw]
          · left
            simp [Cache.get, GetOut.post, hc, hf, hb, hw]
    · left
      simp [Cache.get, GetOut.post, hc, hf]

/-- An `Update` either leaves the value store untouched or inserts the
key it was called with. -/
theorem update_post_items {V : Type} (c : Cache V) (k' : String) :
    ((c.update k').post).items = c.items ∨
    ∃ items v', c.items = some items ∧
      ((c.update k').post).items = some (items.insert k' v') := by
  rcases hb : (GoMap.find? c.isBeingFetchedMap k').getD false with _ | _
  · rcases hfe : c.fetch k' with ⟨v, e⟩
    rcases e with _ | err
    · rcases hc : c.items with _ | items
      · left
        simp [Cache.update, Cache.updateLeader, UpdOut.post, hb, hfe, hc]
      · right
        refine ⟨items, v, rfl, ?_⟩
        simp [Cache.update, Cache.updateLeader, UpdOut.post, hb, hfe, hc]
    · left
      simp [Cache.update, Cache.updateLeader, UpdOut.post, hb, hfe]
  · rcases hw : GoMap.find? c.isBeingFetchedWG k' with _ | n
    · left
      simp [Cache.update, UpdOut.post, hb, hw]
    · rcases n with _ | n
      · rcases hfe : c.fetch k' with ⟨v, e⟩
        rcases e with _ | err
        · rcases hc : c.items with _ | items
          · left
            simp [Cache.update, UpdOut.post, hb, hw, hfe, hc]
          · right
            refine ⟨items, v, rfl, ?_⟩
            simp [Cache.update, UpdOut.post, hb, hw, hfe, hc]
        · left
          simp [Cache.update, UpdOut.post, hb, hw, hfe]
      · left
        simp [Cache.update, UpdOut.post, hb, hw]

/-- A cached binding survives any single call that is neither `Clear` nor
an `Update` of the same key. -/
theorem itemsFind_runOp {V : Type} {c : Cache V} {k : String} {v : V}
    (op : Op) (hv : c.itemsFind k = some v) (hclear : op ≠ Op.clear)
    (hupd : op ≠ Op.update k) :
    (c.runOp op).itemsFind k = some v := by
  obtain ⟨m, hm, hfm⟩ : ∃ m, c.items = some m ∧ GoMap.find? m k = some v := by
    rcases hc : c.items with _ | m
    · rw [itemsFind_of_none hc] at hv
      exact absurd hv (by simp)
    · rw [itemsFind_of_items hc] at hv
      exact ⟨m, rfl, hv⟩
  cases op with
  | clear => exact absurd rfl hclear
  | get k' =>
    by_cases hk : k' = k
    · subst hk
      simp only [Cache.runOp]
      rw [get_hit hv]
      exact hv
    · simp only [Cache.runOp]
      rcases get_post_items c k' with h | ⟨items, v', hi, h⟩
      · rw [itemsFind_of_items (h.trans hm)]
        exact hfm
      · have him : items = m := by
          rw [hi] at hm
          exact Option.some.inj hm
        subst him
        rw [itemsFind_of_items h,
          GoMap.find?_insert_ne items v' (fun hkk => hk hkk.symm)]
        exact hfm
  | update k' =>
    have hk : k' ≠ k := fun h => hupd (by rw [h])
    simp only [Cache.runOp]
    rcases update_post_items c k' with h | ⟨items, v', hi, h⟩
    · rw [itemsFind_of_items (h.trans hm)]
      exact hfm
    · have him : items = m := by
        rw [hi] at hm
        exact Option.some.inj hm
      subst him
      rw [itemsFind_of_items h,
        GoMap.find?_insert_ne items v' (fun hkk => hk hkk.symm)]
      exact hfm

/-- Folding `insert` over a map with pairwise-distinct keys (the copy
loop of `GetAll`) preserves every lookup. -/
theorem find?_foldl_insert {V : Type} (m : GoMap V) (acc : GoMap V)
    (hm : GoMap.NodupKeys m) (k : String) :
    GoMap.find? (m.foldl (fun a p => a.insert p.1 p.2) acc) k =
      match GoMap.find? m k with
      | some v => some v
      | none => GoMap.find? acc k := by
  induction m generalizing acc with
  | nil => rfl
  | cons p rest ih =>
    rcases p with ⟨a, b⟩
    have hnd : a ∉ rest.map Prod.fst ∧ GoMap.NodupKeys rest := by
      simpa [GoMap.NodupKeys] using hm
    simp only [List.foldl_cons]
    rw [ih _ hnd.2]
    by_cases hk : a = k
    · subst hk
      have hrest : GoMap.find? rest a = none :=
        GoMap.find?_eq_none_of_not_mem hnd.1
      simp [GoMap.find?, hrest, GoMap.find?_insert_self]
    · simp only [GoMap.find?, if_neg hk]
      cases hr : GoMap.find? rest k with
      | some v => simp [hr]
      | none =>
        simp only [hr]
        exact GoMap.find?_erase_ne acc (fun h => hk h.symm)

/-!  Concrete fixtures used by counterexamples and witnesses. -/

/-- A fetcher that always succeeds with the value `7`. -/
def okFetcher : String → Nat × Option ErrMsg := fun _ => (7, none)

/-- A fetcher that always fails with the error `boom`. -/
def failFetcher : String → Nat × Option ErrMsg := fun _ => (0, some "boom")

/-- A cache in the invalid zero state: `items` is the nil map. -/
def zCache : Cache Nat :=
  { items := none, fetch := okFetcher, isBeingFetchedMap := [],
    isBeingFetchedWG := [], fetchLog := [] }

/-- A freshly constructed cache holding one entry. -/
def sCache : Cache Nat :=
  { items := some [("a", 1)], fetch := okFetcher, isBeingFetchedMap := [],
    isBeingFetchedWG := [], fetchLog := [] }

/-- A fresh cache whose fetcher fails. -/
def cFail : Cache Nat :=
  { items := some [], fetch := failFetcher, isBeingFetchedMap := [],
    isBeingFetchedWG := [], fetchLog := [] }

/-- The state a leader `Get` leaves behind after a failed fetch of
`"k"`: waiters have been released but the in-flight flag is stuck. -/
def wCache : Cache Nat :=
  { items := some [], fetch := okFetcher,
    isBeingFetchedMap := [("k", true)], isBeingFetchedWG := [("k", 0)],
    fetchLog := ["k"] }

/-- A prewarm function returning a nil map and a nil error. -/
def pwNil : Unit → Option (GoMap Nat) × Option ErrMsg := fun _ => (none, none)

/-- A fetcher for the interleaved runs. -/
def fetch7 : String → Nat × Option ErrMsg := fun _ => (7, none)

/-- Two concurrent `Get("k")` threads against a fresh cache. -/
def sysTwoGets : Sys Nat :=
  { shared := { items := some [], isBeingFetchedMap := [],
                isBeingFetchedWG := [], fetchLog := [] },
    threads := [TSt.gStart "k", TSt.gStart "k"] }

/-- A schedule in which both `Get` threads read the in-flight flag
before either of them sets it. -/
def schedTwoGets : List Nat := [0, 1, 0, 1, 0, 0, 1, 1]

/-- A concurrent `Update("k")` thread and `Get("k")` thread against a
fresh cache. -/
def sysUpdGet : Sys Nat :=
  { shared := { items := some [], isBeingFetchedMap := [],
                isBeingFetchedWG := [], fetchLog := [] },
    threads := [TSt.uStart "k", TSt.gStart "k"] }

/-- A schedule in which `Update` reads the in-flight flag after the
`Get` thread has decided to become leader but before it marks the key. -/
def schedUpdGet : List Nat := [1, 1, 0, 1, 1, 0, 0]

/-!  The ten claims. -/

/-- C1: in `Get`'s leader case the claim says that after the fetcher
returns, successfully or not, the in-flight flag is cleared and all
waiters are released.  The code releases waiters (the deferred
`wg.Done()`), but on a fetch error the early `return` at `cache.go` line
86 skips the flag reset at line 94: the evaluation below shows the flag
still set (`some true`) after a failed leader fetch, while the
WaitGroup counter is back to `0`. -/
theorem get_error_flag_stuck :
    ∃ c', Cache.get cFail "k" = GetOut.ret (some 0) (some "boom") c' ∧
      GoMap.find? c'.isBeingFetchedMap "k" = some true ∧
      GoMap.find? c'.isBeingFetchedWG "k" = some 0 ∧
      c'.fetchLog = ["k"] :=
  ⟨_, rfl, rfl, rfl, rfl⟩

/-- C2: the fetcher's error is returned verbatim and the key stays
absent from the store, but because the failed leader left the in-flight
flag set, a second `Get` of the same key takes the follower path: it
returns `(nil, nil)` without invoking the fetcher again (the fetch log
still holds exactly one invocation), instead of re-triggering a leader
fetch as the claim states. -/
theorem get_error_no_retry :
    ∃ c', Cache.get cFail "k" = GetOut.ret (some 0) (some "boom") c' ∧
      c'.itemsFind "k" = none ∧
      Cache.get c' "k" = GetOut.ret none none c' ∧
      c'.fetchLog = ["k"] :=
  ⟨_, rfl, rfl, rfl, rfl⟩

/-- C3: single-flight fails.  Two concurrent `Get("k")` calls against a
fresh cache, interleaved so that both read the in-flight flag (lines
67-69) before either sets it (lines 72-80), both become leaders: after
the schedule below both threads are inside a fetcher call at the same
instant and the fetcher has been invoked twice for `"k"`. -/
theorem two_gets_double_fetch :
    ((sysTwoGets.run fetch7 schedTwoGets).threads.map TSt.isFetching
        = [true, true]) ∧
    (sysTwoGets.run fetch7 schedTwoGets).shared.fetchLog = ["k", "k"] :=
  ⟨rfl, rfl⟩

/-- C4: once `items` holds `v` at key `k`, any sequence of calls that
contains neither `Clear` nor `Update(k)` keeps that binding, and a
`Get(k)` after any such sequence returns `v` with a nil error and leaves
the cache completely unchanged — in particular the fetch log is
unchanged, so the fetcher is not invoked. -/
theorem get_hit_stable {V : Type} (c : Cache V) (k : String) (v : V)
    (ops : List Op) (hv : c.itemsFind k = some v)
    (hops : ∀ op ∈ ops, op ≠ Op.clear ∧ op ≠ Op.update k) :
    (c.runOps ops).itemsFind k = some v ∧
    (c.runOps ops).get k = GetOut.ret (some v) none (c.runOps ops) := by
  induction ops generalizing c with
  | nil => exact ⟨hv, get_hit hv⟩
  | cons op rest ih =>
    have hop := hops op (by simp)
    have h1 := itemsFind_runOp op hv hop.1 hop.2
    exact ih (c.runOp op) h1 (fun o ho => hops o (by simp [ho]))

/-- Witness for C4 at a concrete cache and call sequence. -/
theorem get_hit_stable_witness :
    (sCache.runOps [Op.get "b", Op.update "b", Op.get "a"]).itemsFind "a"
        = some 1 ∧
    (sCache.runOps [Op.get "b", Op.update "b", Op.get "a"]).get "a"
        = GetOut.ret (some 1) none
            (sCache.runOps [Op.get "b", Op.update "b", Op.get "a"]) :=
  get_hit_stable sCache "a" 1 [Op.get "b", Op.update "b", Op.get "a"]
    (by decide) (by decide)

/-- C5: `Get` on a cache whose `items` map is nil returns the
not-initialized error for every key, returning the state unchanged — in
particular the fetch log is unchanged, so the fetcher is not invoked. -/
theorem get_not_initialized {V : Type} (c : Cache V) (k : String)
    (h : c.items = none) :
    c.get k = GetOut.ret none (some errNotInitialized) c := by
  unfold Cache.get
  rw [h]

/-- Witness for C5 at the concrete zero-state cache. -/
theorem get_not_initialized_witness :
    Cache.get zCache "x" = GetOut.ret none (some errNotInitialized) zCache :=
  get_not_initialized zCache "x" rfl

/-- C6: `Clear` on the zero state fails with the not-initialized error
and changes nothing; on an initialized cache it succeeds and afterwards
`GetAll` returns the empty map. -/
theorem clear_spec {V : Type} (c : Cache V) :
    (c.items = none → c.clear = (some errNotInitialized, c)) ∧
    (∀ m, c.items = some m →
      (c.clear).1 = none ∧ (c.clear).2.getAll = some []) := by
  constructor
  · intro h
    unfold Cache.clear
    rw [h]
  · intro m h
    unfold Cache.clear Cache.getAll
    rw [h]
    exact ⟨rfl, rfl⟩

/-- Witness for C6 at a zero-state cache and an initialized cache. -/
theorem clear_spec_witness :
    Cache.clear zCache = (some errNotInitialized, zCache) ∧
    (Cache.clear sCache).1 = none ∧
    (Cache.clear sCache).2.getAll = some [] :=
  ⟨(clear_spec zCache).1 rfl, (clear_spec sCache).2 [("a", 1)] rfl⟩

/-- C7: `GetAll` returns the nil marker on the zero state; on an
initialized cache it returns a freshly built map whose every lookup
agrees with the value store at the moment of the call (the fresh list is
built by the copy loop, so later mutation of either side cannot affect
the other). -/
theorem getAll_spec {V : Type} (c : Cache V) :
    (c.items = none → c.getAll = none) ∧
    (∀ m, c.items = some m → GoMap.NodupKeys m →
      ∃ m', c.getAll = some m' ∧
        ∀ k, GoMap.find? m' k = GoMap.find? m k) := by
  constructor
  · intro h
    unfold Cache.getAll
    rw [h]
  · intro m h hm
    refine ⟨m.foldl (fun a p => a.insert p.1 p.2) [], ?_, ?_⟩
    · unfold Cache.getAll
      rw [h]
    · intro k
      rw [find?_foldl_insert m [] hm k]
      cases hr : GoMap.find? m k with
      | some v => simp
      | none => simp [GoMap.find?]

/-- Witness for C7 at a zero-state cache and an initialized cache. -/
theorem getAll_spec_witness :
    Cache.getAll zCache = none ∧
    ∃ m', Cache.getAll sCache = some m' ∧
      GoMap.find? m' "a" = some 1 := by
  obtain ⟨m', h1, h2⟩ := (getAll_spec sCache).2 [("a", 1)] rfl (by decide)
  exact ⟨(getAll_spec zCache).1 rfl, m', h1, (h2 "a").trans (by decide)⟩

/-- C8 (amended): `Update` shares the in-flight tracker with `Get` in
the sequential protocol — with no fetch in flight it becomes leader
(marks the key, fetches once, writes the result, clears the flag and
restores the WaitGroup counter), and with a fetch observed in flight it
waits and then performs one more authoritative fetch and writes that
result.  The claim's further clause that `Update` can never launch a
second concurrent fetch is refuted by the interleaving in the
counterexample theorem. -/
theorem update_amended {V : Type} (c : Cache V) (k : String) (m : GoMap V)
    (v : V) (hitems : c.items = some m) (hfetch : c.fetch k = (v, none)) :
    ((GoMap.find? c.isBeingFetchedMap k).getD false = false →
      ∃ c', c.update k = UpdOut.ret none c' ∧
        c'.items = some (m.insert k v) ∧
        GoMap.find? c'.isBeingFetchedMap k = some false ∧
        GoMap.find? c'.isBeingFetchedWG k
          = some ((GoMap.find? c.isBeingFetchedWG k).getD 0) ∧
        c'.fetchLog = c.fetchLog ++ [k]) ∧
    ((GoMap.find? c.isBeingFetchedMap k).getD false = true →
      GoMap.find? c.isBeingFetchedWG k = some 0 →
      ∃ c', c.update k = UpdOut.ret none c' ∧
        c'.items = some (m.insert k v) ∧
        c'.fetchLog = c.fetchLog ++ [k]) := by
  constructor
  · intro hb
    simp only [Cache.update, Cache.updateLeader, hb, Bool.false_eq_true,
      if_false, hfetch, hitems]
    exact ⟨_, rfl, rfl, GoMap.find?_insert_self _ k false,
      GoMap.find?_insert_self _ k _, rfl⟩
  · intro hb hw
    simp only [Cache.update, hb, if_true, hw, hfetch, hitems]
    exact ⟨_, rfl, rfl, rfl⟩

/-- Witness for C8's amended theorem: the leader path on a fresh cache
and the wait path on a cache whose previous leader has finished. -/
theorem update_amended_witness :
    (∃ c', Cache.update sCache "k" = UpdOut.ret none c' ∧
      c'.items = some (GoMap.insert [("a", 1)] "k" 7) ∧
      GoMap.find? c'.isBeingFetchedMap "k" = some false ∧
      GoMap.find? c'.isBeingFetchedWG "k" = some 0 ∧
      c'.fetchLog = ["k"]) ∧
    (∃ c', Cache.update wCache "k" = UpdOut.ret none c' ∧
      c'.items = some (GoMap.insert [] "k" 7) ∧
      c'.fetchLog = ["k", "k"]) :=
  ⟨(update_amended sCache "k" [("a", 1)] 7 rfl rfl).1 rfl,
   (update_amended wCache "k" [] 7 rfl rfl).2 rfl rfl⟩

/-- C8 counterexample: an `Update("k")` racing with a `Get("k")` on a
fresh cache, with `Update` reading the in-flight flag before the `Get`
leader marks it, ends with both threads inside a fetcher call at the
same instant and two fetch invocations for `"k"` — `Update` did launch
a second concurrent fetch. -/
theorem upd_get_double_fetch :
    ((sysUpdGet.run fetch7 schedUpdGet).threads.map TSt.isFetching
        = [true, true]) ∧
    (sysUpdGet.run fetch7 schedUpdGet).shared.fetchLog = ["k", "k"] :=
  ⟨rfl, rfl⟩

/-- C9: if the prewarm function returns a nil map with a nil error,
`New` succeeds and hands back a cache whose `items` map is nil; on that
cache `GetAll` returns nil and every `Get` fails with the
not-initialized error. -/
theorem new_nil_prewarm {V : Type} (f : String → V × Option ErrMsg)
    (pw : Unit → Option (GoMap V) × Option ErrMsg)
    (hpw : pw () = (none, none)) :
    ∃ c : Cache V, New f (some pw) = (some c, none) ∧ c.items = none ∧
      c.getAll = none ∧
      ∀ k, c.get k = GetOut.ret none (some errNotInitialized) c := by
  refine ⟨{ items := none, fetch := f, isBeingFetchedMap := [],
            isBeingFetchedWG := [], fetchLog := [] },
    ?_, rfl, rfl, fun k => rfl⟩
  simp only [New]
  rw [hpw]

/-- Witness for C9 at a concrete prewarm function. -/
theorem new_nil_prewarm_witness :
    ∃ c : Cache Nat, New okFetcher (some pwNil) = (some c, none) ∧
      c.items = none ∧ c.getAll = none ∧
      ∀ k, c.get k = GetOut.ret none (some errNotInitialized) c :=
  new_nil_prewarm okFetcher pwNil rfl

/-- C10: `Update` performs no initialization check: on a cache whose
`items` map is nil (and whose key is not marked in flight) it invokes
the fetcher — the fetch log grows — and, the fetch having succeeded,
panics on the assignment into the nil map instead of returning the
not-initialized error. -/
theorem update_nil_items_panics {V : Type} (c : Cache V) (k : String)
    (v : V) (hitems : c.items = none)
    (hflag : (GoMap.find? c.isBeingFetchedMap k).getD false = false)
    (hfetch : c.fetch k = (v, none)) :
    ∃ c', c.update k = UpdOut.panicked c' ∧
      c'.fetchLog = c.fetchLog ++ [k] := by
  simp only [Cache.update, Cache.updateLeader, hflag, Bool.false_eq_true,
    if_false, hfetch, hitems]
  exact ⟨_, rfl, rfl⟩

/-- Witness for C10 at the concrete zero-state cache, whose fetcher
succeeds with the value `7`. -/
theorem update_nil_items_panics_witness :
    ∃ c', Cache.update zCache "x" = UpdOut.panicked c' ∧
      c'.fetchLog = ["x"] :=
  update_nil_items_panics zCache "x" 7 rfl rfl rfl

end TCache
